import Mathlib

/-!
Verification development for the hybrid inference routing and resilience
layer of `scripts/local_media_bridge.py`.

The Python source is shallowly embedded: module-level mutable globals
(`OLLAMA_FAILURE_COUNT`, `OLLAMA_CIRCUIT_OPEN_UNTIL`, the presence and client
dictionaries) become explicit state records threaded through the functions;
HTTP calls become values drawn from an environment record (one entry per
distinct outbound request the code can make), and the list of network calls
actually attempted is returned alongside the result.  Wall-clock time
(`time.time()`) is a rational number supplied by the caller; each embedded
call happens at a single instant `now`.  Python strings are Lean `String`s
(scanned as `List Char` where character-level work is needed); `str.lower`
is ASCII-only here, which agrees with the Python on all inputs the routing
layer compares against (its keyword list is ASCII).
-/

/-- Global circuit-breaker state for the local backend: the pair of globals
`OLLAMA_FAILURE_COUNT` and `OLLAMA_CIRCUIT_OPEN_UNTIL`. -/
structure CircuitState where
  failureCount : Nat
  openUntil : ℚ
deriving DecidableEq

/-- `CIRCUIT_FAILURE_THRESHOLD = 3`. -/
def CIRCUIT_FAILURE_THRESHOLD : Nat := 3

/-- `CIRCUIT_COOLDOWN_SECONDS = 30`. -/
def CIRCUIT_COOLDOWN_SECONDS : ℚ := 30

/-- The failure bookkeeping both failure paths of `_chat_with_ollama` perform:
`OLLAMA_FAILURE_COUNT += 1` and, when the count has reached the threshold,
`OLLAMA_CIRCUIT_OPEN_UNTIL = time.time() + CIRCUIT_COOLDOWN_SECONDS`. -/
def recordFailure (s : CircuitState) (now : ℚ) : CircuitState :=
  let c := s.failureCount + 1
  { failureCount := c
    openUntil :=
      if CIRCUIT_FAILURE_THRESHOLD ≤ c then now + CIRCUIT_COOLDOWN_SECONDS
      else s.openUntil }

/-- Whether a call at time `now` gets past the breaker guard at the top of
`_chat_with_ollama` (the guard short-circuits exactly when
`now < OLLAMA_CIRCUIT_OPEN_UNTIL`). -/
def circuitAllows (s : CircuitState) (now : ℚ) : Bool :=
  if now < s.openUntil then false else true

/-- Result of one `httpx` request: either a raised exception (with its
string rendering) or a response object. -/
inductive Http (α : Type) where
  | exn (msg : String)
  | ok (r : α)
deriving DecidableEq

/-- The parts of an Ollama/Moonshot chat HTTP response the code inspects:
`is_success`, `status_code`, and the message content extracted from the
JSON body. -/
structure ChatResp where
  isSuccess : Bool
  statusCode : Nat
  content : String
deriving DecidableEq

/-- The parts of the `GET /api/tags` response the code inspects:
`is_success` and, for each entry of `json()['models']`, its `name` field
(`none` when the entry is null or has no name). -/
structure TagsResp where
  isSuccess : Bool
  models : List (Option String)
deriving DecidableEq

/-- Environment for `_chat_with_ollama`: what the backend would answer to a
chat request for a given model name, and to a tags listing. -/
structure OllamaEnv where
  chat : String → Http ChatResp
  tags : Http TagsResp

/-- One outbound network request attempted by `_chat_with_ollama`. -/
inductive NetCall where
  | chat (model : String)
  | tags
deriving DecidableEq

/-- An error response (`JSONResponse(status_code=..., content={'error': ...,
'details': ...})`); `details` is empty for bodies without a details key. -/
structure ErrorResponse where
  status : Nat
  error : String
  details : String
deriving DecidableEq

/-- Outcome of one `_chat_with_ollama` invocation: the `(content, error)`
pair it returns, the circuit state it leaves behind, and the network
requests it attempted, in order. -/
structure OllamaResult where
  content : Option String
  error : Option ErrorResponse
  state : CircuitState
  calls : List NetCall
deriving DecidableEq

/-- `model or 'llama3:latest'` applied to the requested model name. -/
def effectiveModel (model : String) : String :=
  if model = "" then "llama3:latest" else model

/-- The retry-model choice embedded in `_chat_with_ollama`'s non-success
branch: `fallback_model = (models[0] or {}).get('name') if models else None`,
used only when `fallback_model` is truthy and differs from the requested
model, and only when the tags listing succeeded. -/
def selectFallback (t : Http TagsResp) (requested : String) : Option String :=
  match t with
  | .exn _ => none
  | .ok tr =>
    if tr.isSuccess then
      match tr.models with
      | [] => none
      | m :: _ =>
        match m with
        | none => none
        | some fm => if fm ≠ "" ∧ fm ≠ requested then some fm else none
    else none

/-- The final outcome step of `_chat_with_ollama`: on a success response,
reset the breaker and return the content; otherwise record a failure and
return the 503 body quoting the final response's status code. -/
def finishOllama (s : CircuitState) (now : ℚ) (resp : ChatResp)
    (calls : List NetCall) : OllamaResult :=
  if resp.isSuccess then
    { content := some resp.content, error := none
      state := { failureCount := 0, openUntil := 0 }, calls := calls }
  else
    { content := none
      error := some { status := 503, error := "Local inference unavailable"
                      details := "Ollama chat failed: " ++ toString resp.statusCode }
      state := recordFailure s now, calls := calls }

/-- Shallow embedding of `_chat_with_ollama` (messages and temperature are
passed through to the request body unchanged and never inspected, so they
are elided from the embedding). -/
def chatWithOllama (env : OllamaEnv) (s : CircuitState) (now : ℚ)
    (model : String) : OllamaResult :=
  if now < s.openUntil then
    { content := none
      error := some
        { status := 503, error := "Local inference unavailable"
          details := "circuit_open_retry_in_" ++ toString (s.openUntil - now).floor ++ "s" }
      state := s, calls := [] }
  else
    let requested := effectiveModel model
    match env.chat requested with
    | .exn msg =>
      { content := none
        error := some { status := 503, error := "Local inference unavailable", details := msg }
        state := recordFailure s now, calls := [NetCall.chat requested] }
    | .ok resp =>
      let step :=
        if resp.isSuccess then (resp, [NetCall.chat requested])
        else
          match selectFallback env.tags requested with
          | none => (resp, [NetCall.chat requested, NetCall.tags])
          | some fm =>
            match env.chat fm with
            | .exn _ => (resp, [NetCall.chat requested, NetCall.tags, NetCall.chat fm])
            | .ok r2 => (r2, [NetCall.chat requested, NetCall.tags, NetCall.chat fm])
      finishOllama s now step.1 step.2

lemma recordFailure_count (s : CircuitState) (now : ℚ) :
    (recordFailure s now).failureCount = s.failureCount + 1 := rfl

lemma recordFailure_open_of_le (s : CircuitState) (now : ℚ)
    (h : CIRCUIT_FAILURE_THRESHOLD ≤ s.failureCount + 1) :
    (recordFailure s now).openUntil = now + CIRCUIT_COOLDOWN_SECONDS := by
  simp [recordFailure, h]

lemma recordFailure_open_of_lt (s : CircuitState) (now : ℚ)
    (h : s.failureCount + 1 < CIRCUIT_FAILURE_THRESHOLD) :
    (recordFailure s now).openUntil = s.openUntil := by
  simp [recordFailure, Nat.not_le.mpr h]

/-- Every `finishOllama` outcome is either a failure leaving the
`recordFailure` state or a success leaving the reset state. -/
lemma finishOllama_cases (s : CircuitState) (now : ℚ) (r : ChatResp)
    (c : List NetCall) :
    ((finishOllama s now r c).error.isSome = true ∧
      (finishOllama s now r c).state = recordFailure s now) ∨
    ((finishOllama s now r c).error = none ∧
      (finishOllama s now r c).state = { failureCount := 0, openUntil := 0 }) := by
  by_cases h : r.isSuccess
  · right; simp [finishOllama, h]
  · left; simp [finishOllama, h]

/-- When the breaker guard passes, the outcome of `_chat_with_ollama` is a
`finishOllama` of some response, except for the raised-exception path. -/
lemma chatWithOllama_state_dichotomy (env : OllamaEnv) (s : CircuitState)
    (now : ℚ) (model : String) (h : ¬ now < s.openUntil) :
    ((chatWithOllama env s now model).error.isSome = true ∧
      (chatWithOllama env s now model).state = recordFailure s now) ∨
    ((chatWithOllama env s now model).error = none ∧
      (chatWithOllama env s now model).state = { failureCount := 0, openUntil := 0 }) := by
  unfold chatWithOllama
  rw [if_neg h]
  cases henv : env.chat (effectiveModel model) with
  | exn msg =>
    simp only [henv]
    left
    exact ⟨Option.isSome_some, trivial⟩
  | ok resp =>
    simp only [henv]
    exact finishOllama_cases s now _ _

/-- Claim C1: for every recorded call outcome of the local backend (breaker
closed at call time), a failure outcome — a raised exception or a final
non-success response — increments the failure count by one; when the count
reaches the threshold of 3 the circuit opens until `now + 30`
(and below the threshold `openUntil` is untouched); a successful final
outcome resets the count to 0 and clears `openUntil`, so the breaker allows
the call at every nonnegative time. -/
theorem circuit_breaker_outcome_spec (env : OllamaEnv) (s : CircuitState)
    (now : ℚ) (model : String) (h : ¬ now < s.openUntil) :
    (((chatWithOllama env s now model).error.isSome = true) →
        (chatWithOllama env s now model).state.failureCount = s.failureCount + 1
      ∧ (CIRCUIT_FAILURE_THRESHOLD ≤ s.failureCount + 1 →
          (chatWithOllama env s now model).state.openUntil = now + CIRCUIT_COOLDOWN_SECONDS)
      ∧ (s.failureCount + 1 < CIRCUIT_FAILURE_THRESHOLD →
          (chatWithOllama env s now model).state.openUntil = s.openUntil))
    ∧ (((chatWithOllama env s now model).error = none) →
        (chatWithOllama env s now model).state = { failureCount := 0, openUntil := 0 }
      ∧ ∀ t : ℚ, 0 ≤ t → circuitAllows (chatWithOllama env s now model).state t = true) := by
  rcases chatWithOllama_state_dichotomy env s now model h with ⟨he, hs⟩ | ⟨he, hs⟩
  · constructor
    · intro _
      rw [hs]
      exact ⟨recordFailure_count s now,
        fun hth => recordFailure_open_of_le s now hth,
        fun hth => recordFailure_open_of_lt s now hth⟩
    · intro hnone
      rw [hnone] at he
      simp at he
  · constructor
    · intro hsome
      rw [he] at hsome
      simp at hsome
    · intro _
      refine ⟨hs, fun t ht => ?_⟩
      rw [hs]
      simp only [circuitAllows]
      rw [if_neg (by exact not_lt.mpr ht)]

/-- A failing environment used by concrete witnesses: every request raises. -/
def envAllFail : OllamaEnv :=
  { chat := fun _ => Http.exn "connection refused", tags := Http.exn "connection refused" }

/-- Witness for `circuit_breaker_outcome_spec` at a concrete failing call:
from a zero-failure closed breaker, one failed call moves the count to 1
and leaves `openUntil` untouched. -/
theorem circuit_breaker_outcome_spec_witness :
    (chatWithOllama envAllFail ⟨0, 0⟩ 0 "m").state.failureCount = 0 + 1 ∧
    (chatWithOllama envAllFail ⟨0, 0⟩ 0 "m").state.openUntil = 0 := by
  have h := circuit_breaker_outcome_spec envAllFail ⟨0, 0⟩ 0 "m" (by norm_num)
  have hfail : (chatWithOllama envAllFail ⟨0, 0⟩ 0 "m").error.isSome = true := by decide
  obtain ⟨hc, _, hlt⟩ := h.1 hfail
  exact ⟨hc, by simpa using hlt (by decide)⟩

/-- Claim C2: while `now < openUntil` the call short-circuits with a 503
whose detail is `circuit_open_retry_in_<n>s` for `n = ⌊openUntil - now⌋`
(the whole seconds remaining), attempts no network request, and leaves the
breaker state — in particular the failure counter — unchanged. -/
theorem circuit_open_short_circuit (env : OllamaEnv) (s : CircuitState)
    (now : ℚ) (model : String) (h : now < s.openUntil) :
    chatWithOllama env s now model =
      { content := none
        error := some
          { status := 503, error := "Local inference unavailable"
            details := "circuit_open_retry_in_" ++ toString (s.openUntil - now).floor ++ "s" }
        state := s, calls := [] } := by
  unfold chatWithOllama
  rw [if_pos h]

/-- Witness for `circuit_open_short_circuit`: with the circuit open until
t = 100 and a call at t = 70.5, the call makes no network request, keeps the
state, and reports a 29-second retry hint (. 29 = ⌊29.5⌋ .). -/
theorem circuit_open_short_circuit_witness :
    (chatWithOllama envAllFail ⟨3, 100⟩ (141 / 2) "m").calls = [] ∧
    (chatWithOllama envAllFail ⟨3, 100⟩ (141 / 2) "m").state = ⟨3, 100⟩ ∧
    (chatWithOllama envAllFail ⟨3, 100⟩ (141 / 2) "m").error =
      some { status := 503, error := "Local inference unavailable"
             details := "circuit_open_retry_in_29s" } := by
  have h := circuit_open_short_circuit envAllFail ⟨3, 100⟩ (141 / 2) "m" (by norm_num)
  rw [h]
  refine ⟨rfl, rfl, ?_⟩
  have hf : ((100 : ℚ) - 141 / 2).floor = 29 := by
    rw [show ((100 : ℚ) - 141 / 2).floor = ⌊(100 : ℚ) - 141 / 2⌋ from rfl]
    norm_num
  show (some { status := 503, error := "Local inference unavailable"
               details := "circuit_open_retry_in_" ++ toString ((100 : ℚ) - 141 / 2).floor ++ "s" } :
          Option ErrorResponse) =
       some { status := 503, error := "Local inference unavailable"
              details := "circuit_open_retry_in_29s" }
  rw [hf]
  decide

/-- Formalisation of the claim's retry-model rule, in the spec's words:
list the backend's available models and select the first listed model that
differs from the originally requested model. -/
def specFirstDifferingModel (models : List (Option String))
    (requested : String) : Option String :=
  (models.filterMap id).find? (fun m => decide (m ≠ requested))

lemma finishOllama_calls (s : CircuitState) (now : ℚ) (r : ChatResp)
    (c : List NetCall) : (finishOllama s now r c).calls = c := by
  unfold finishOllama
  split <;> rfl

/-- Environment where the requested model "m1" fails with HTTP 500, the
model listing succeeds with ["m1", "m2"], and any other model would
answer successfully. -/
def envHeadSameTail : OllamaEnv :=
  { chat := fun m => if m = "m1" then Http.ok ⟨false, 500, ""⟩ else Http.ok ⟨true, 200, "hi"⟩
    tags := Http.ok ⟨true, [some "m1", some "m2"]⟩ }

/-- Counterexample to claim C5: the listing contains a model ("m2") that
differs from the requested one ("m1") — the claim's rule selects it — yet
the code only ever examines the first listed model, which here equals the
requested one, so no retry is attempted at all. -/
theorem retry_model_selection_cex :
    (chatWithOllama envHeadSameTail ⟨0, 0⟩ 0 "m1").calls = [NetCall.chat "m1", NetCall.tags] ∧
    NetCall.chat "m2" ∉ (chatWithOllama envHeadSameTail ⟨0, 0⟩ 0 "m1").calls ∧
    specFirstDifferingModel [some "m1", some "m2"] "m1" = some "m2" := by
  refine ⟨?_, ?_, ?_⟩ <;> decide

/-- Claim C5 (amended): on a non-success response the router attempts at
most one retry, and it retries with the FIRST model of the listing, only
when that first model's name is present, non-empty and differs from the
requested one; when the listing raises, no retry happens and the original
failure's status code is surfaced. -/
theorem retry_uses_first_listed_model (env : OllamaEnv) (s : CircuitState)
    (now : ℚ) (model : String) (h : ¬ now < s.openUntil) (resp : ChatResp)
    (hchat : env.chat (effectiveModel model) = Http.ok resp)
    (hfail : resp.isSuccess = false) :
    (selectFallback env.tags (effectiveModel model) = none →
        (chatWithOllama env s now model).calls
            = [NetCall.chat (effectiveModel model), NetCall.tags]
      ∧ (chatWithOllama env s now model).error
            = some { status := 503, error := "Local inference unavailable"
                     details := "Ollama chat failed: " ++ toString resp.statusCode })
    ∧ (∀ fm, selectFallback env.tags (effectiveModel model) = some fm →
        (chatWithOllama env s now model).calls
          = [NetCall.chat (effectiveModel model), NetCall.tags, NetCall.chat fm])
    ∧ (∀ m r, selectFallback (Http.exn m) r = none)
    ∧ (∀ tr r fm, selectFallback (Http.ok tr) r = some fm →
        tr.models.head? = some (some fm) ∧ fm ≠ "" ∧ fm ≠ r) := by
  refine ⟨?_, ?_, ?_, ?_⟩
  · intro hsel
    unfold chatWithOllama
    rw [if_neg h]
    simp [hchat, hfail, hsel, finishOllama]
  · intro fm hsel
    unfold chatWithOllama
    rw [if_neg h]
    simp only [hchat, hfail, hsel]
    cases henv2 : env.chat fm with
    | exn m2 => exact finishOllama_calls s now _ _
    | ok r2 => exact finishOllama_calls s now _ _
  · intro m r
    rfl
  · intro tr r fm hsel
    rcases tr with ⟨ts, ms⟩
    cases ts
    · simp [selectFallback] at hsel
    · cases ms with
      | nil => simp [selectFallback] at hsel
      | cons m0 rest =>
        cases m0 with
        | none => simp [selectFallback] at hsel
        | some name =>
          by_cases hcond : name ≠ "" ∧ name ≠ r
          · have hname : name = fm := by simpa [selectFallback, hcond] using hsel
            subst hname
            exact ⟨rfl, hcond.1, hcond.2⟩
          · simp [selectFallback, hcond] at hsel

/-- Environment where "m1" fails with HTTP 500, the listing's first model
is "m2", and "m2" answers successfully. -/
def envRetryW : OllamaEnv :=
  { chat := fun m => if m = "m1" then Http.ok ⟨false, 500, ""⟩ else Http.ok ⟨true, 200, "ok"⟩
    tags := Http.ok ⟨true, [some "m2"]⟩ }

/-- Witness for `retry_uses_first_listed_model`: with the first listed
model differing from the requested one, exactly one retry is attempted,
against that model. -/
theorem retry_uses_first_listed_model_witness :
    (chatWithOllama envRetryW ⟨0, 0⟩ 0 "m1").calls
      = [NetCall.chat "m1", NetCall.tags, NetCall.chat "m2"] := by
  have h := retry_uses_first_listed_model envRetryW ⟨0, 0⟩ 0 "m1"
    (by norm_num) ⟨false, 500, ""⟩ (by decide) rfl
  exact h.2.1 "m2" (by decide)

/-- One chat message after normalization: a role/content pair. -/
structure Msg where
  role : String
  content : String
deriving DecidableEq

/-- `COMPLEX_TASK_KEYWORDS`, verbatim from the source. -/
def COMPLEX_TASK_KEYWORDS : List String :=
  ["agent swarm", "multi-agent", "parallel agents", "coordinate agents",
   "complex analysis", "deep research", "comprehensive", "thorough investigation",
   "analyze image", "analyze video", "vision", "look at this",
   "step by step plan", "detailed breakdown", "orchestrate"]

/-- `str.lower`, ASCII-only (all keyword comparisons are ASCII). -/
def pyLower (l : List Char) : List Char := l.map Char.toLower

/-- Python's substring containment `needle in hay`. -/
def containsSub (needle : List Char) : List Char → Bool
  | [] => needle.isEmpty
  | c :: t => needle.isPrefixOf (c :: t) || containsSub needle t

/-- `' '.join(...)`: concatenation with a single-space separator. -/
def joinSpace : List (List Char) → List Char
  | [] => []
  | [x] => x
  | x :: y :: t => x ++ ' ' :: joinSpace (y :: t)

/-- Python's `l[-3:]` for `n = 3`. -/
def lastN (n : Nat) (l : List α) : List α := l.drop (l.length - n)

/-- `recent_content`: the lowercased space-join of the content of the last
3 messages (every normalized message's content is a string, so the
`isinstance` filter of the source is a no-op here). -/
def recentContent (messages : List Msg) : List Char :=
  pyLower (joinSpace ((lastN 3 messages).map (fun m => m.content.data)))

/-- `total_length = sum(len(m.get('content', '')) for m in messages)`. -/
def totalContentLength (messages : List Msg) : Nat :=
  (messages.map (fun m => m.content.length)).sum

/-- Shallow embedding of `_should_use_cloud`; `keyConfigured` stands for
the truthiness of `os.environ.get('MOONSHOT_API_KEY')`. -/
def _should_use_cloud (keyConfigured : Bool) (messages : List Msg)
    (force_cloud : Bool) : Bool :=
  if force_cloud then true
  else if !keyConfigured then false
  else if COMPLEX_TASK_KEYWORDS.any (fun k => containsSub k.data (recentContent messages)) then
    true
  else if 8000 < totalContentLength messages then true
  else false

/-- The routing decision computed inside `_hybrid_chat`:
`use_cloud = not force_local and _should_use_cloud(messages, force_cloud)`. -/
def hybridUseCloud (keyConfigured : Bool) (messages : List Msg)
    (force_local force_cloud : Bool) : Bool :=
  !force_local && _should_use_cloud keyConfigured messages force_cloud

/-- The claim's routing rules, written as a first-match-wins rule chain in
the spec's order (the keyword and length tests reuse the embedded
predicates, including the single-space join of the last three messages). -/
def routingDecisionSpec (keyConfigured : Bool) (messages : List Msg)
    (force_local force_cloud : Bool) : Bool :=
  if force_local then false
  else if force_cloud then true
  else if !keyConfigured then false
  else if COMPLEX_TASK_KEYWORDS.any (fun k => containsSub k.data (recentContent messages)) then
    true
  else if 8000 < totalContentLength messages then true
  else false

/-- Claim C3: the code's cloud-vs-local decision coincides, for every
message list and flag combination, with the spec's first-match rule chain
(forceLocal, then forceCloud, then missing credential, then keyword match
over the last 3 messages, then the 8000-character total-length threshold,
else local).  The decision is a pure function of its arguments — no
network environment appears in its type. -/
theorem routing_decision_first_match (keyConfigured : Bool)
    (messages : List Msg) (fl fc : Bool) :
    hybridUseCloud keyConfigured messages fl fc
      = routingDecisionSpec keyConfigured messages fl fc := by
  cases fl <;> cases fc <;> cases keyConfigured <;> rfl

/-- Environment for `_chat_with_moonshot`: the truthiness of
`os.environ.get('MOONSHOT_API_KEY')` and what the completions call would
answer (`ChatResp.content` is `choices[0].message.content`).  The request
body (mode-to-model mapping, temperature) is never inspected afterwards
and is elided. -/
structure CloudEnv where
  keyConfigured : Bool
  post : Http ChatResp

/-- Shallow embedding of `_chat_with_moonshot`. -/
def _chat_with_moonshot (cenv : CloudEnv) : Option String × Option ErrorResponse :=
  if !cenv.keyConfigured then
    (none, some { status := 503, error := "MOONSHOT_API_KEY not configured", details := "" })
  else
    match cenv.post with
    | .exn msg =>
      (none, some { status := 503, error := "Moonshot API unavailable: " ++ msg, details := "" })
    | .ok r =>
      if r.isSuccess then (some r.content, none)
      else
        (none, some { status := r.statusCode
                      error := "Moonshot API error: " ++ toString r.statusCode, details := "" })

/-- Outcome of `_hybrid_chat`: the `(content, provider, error)` triple plus
the circuit state left behind and the local-backend calls attempted. -/
structure HybridResult where
  content : String
  provider : String
  error : Option ErrorResponse
  state : CircuitState
  localCalls : List NetCall
deriving DecidableEq

/-- Shallow embedding of `_hybrid_chat`.  Python's `if content:` truthiness
appears as the non-empty-string tests. -/
def _hybrid_chat (cenv : CloudEnv) (env : OllamaEnv) (s : CircuitState)
    (now : ℚ) (messages : List Msg) (model : String)
    (force_local force_cloud : Bool) : HybridResult :=
  let use_cloud := hybridUseCloud cenv.keyConfigured messages force_local force_cloud
  let cloudContent : Option String :=
    if use_cloud then
      match (_chat_with_moonshot cenv).1 with
      | some c => if c ≠ "" then some c else none
      | none => none
    else none
  match cloudContent with
  | some c =>
    { content := c, provider := "kimi-k2.5", error := none, state := s, localCalls := [] }
  | none =>
    let local_model := if model ≠ "auto" then model else "qwen2.5:14b-instruct-q4_K_M"
    let r := chatWithOllama env s now local_model
    match r.content with
    | some c =>
      if c ≠ "" then
        { content := c, provider := "local", error := none, state := r.state
          localCalls := r.calls }
      else
        { content := "", provider := "none", error := r.error, state := r.state
          localCalls := r.calls }
    | none =>
      { content := "", provider := "none", error := r.error, state := r.state
        localCalls := r.calls }

/-- Request payload of `POST /api/local-ai/chat`, restricted to the fields
the handler reads (`temperature` and `cloudMode` are passed through without
being inspected; `model`/`message` use `""` for an absent or empty field,
which the handler treats alike via truthiness). -/
structure ChatPayload where
  messages : Option (List Msg)
  message : String
  model : String
  forceLocal : Bool
  forceCloud : Bool
deriving DecidableEq

/-- The message normalization at the top of `local_ai_chat`: a non-empty
`messages` list keeps its entries with non-empty content, otherwise a
non-empty `message` becomes a single user message (dict entries always
carry a role here, so the `role` default of the source is a no-op). -/
def normalizeMessages (messages : Option (List Msg)) (message : String) : List Msg :=
  match messages with
  | some l =>
    if l ≠ [] then l.filter (fun m => decide (m.content ≠ ""))
    else if message ≠ "" then [{ role := "user", content := message }] else []
  | none => if message ≠ "" then [{ role := "user", content := message }] else []

/-- The constant degraded-mode message of `local_ai_chat`. -/
def FALLBACK_MESSAGE : String :=
  "AI models unavailable. Please check Ollama or configure MOONSHOT_API_KEY."

/-- Response of `POST /api/local-ai/chat`: a 400 for empty input, else a
plain 200 body carrying content and provider. -/
inductive LocalChatResp where
  | badRequest
  | okResp (content : String) (provider : String)
deriving DecidableEq

/-- HTTP status of a `LocalChatResp`. -/
def LocalChatResp.status : LocalChatResp → Nat
  | .badRequest => 400
  | .okResp _ _ => 200

/-- Shallow embedding of the `local_ai_chat` endpoint handler. -/
def local_ai_chat (cenv : CloudEnv) (env : OllamaEnv) (s : CircuitState)
    (now : ℚ) (p : ChatPayload) : LocalChatResp × CircuitState :=
  let norm := normalizeMessages p.messages p.message
  if norm = [] then (.badRequest, s)
  else
    let model := if p.model = "" then "auto" else p.model
    let r := _hybrid_chat cenv env s now norm model p.forceLocal p.forceCloud
    match r.error with
    | some _ => (.okResp FALLBACK_MESSAGE "none", r.state)
    | none => (.okResp r.content r.provider, r.state)

/-- Response of `POST /api/hybrid/chat`: a 400 for missing messages, the
hybrid error response returned as-is when the chain failed, else a 200
body. -/
inductive HybridHttpResp where
  | badRequest
  | errResp (e : ErrorResponse)
  | okResp (content : String) (provider : String)
deriving DecidableEq

/-- HTTP status of a `HybridHttpResp`. -/
def HybridHttpResp.status : HybridHttpResp → Nat
  | .badRequest => 400
  | .errResp e => e.status
  | .okResp _ _ => 200

/-- Shallow embedding of the `hybrid_chat_endpoint` handler (`cloudMode` is
echoed in the success body and never branches, so it is elided). -/
def hybrid_chat_endpoint (cenv : CloudEnv) (env : OllamaEnv) (s : CircuitState)
    (now : ℚ) (messages : List Msg) (model : String)
    (forceLocal forceCloud : Bool) : HybridHttpResp × CircuitState :=
  if messages = [] then (.badRequest, s)
  else
    let r := _hybrid_chat cenv env s now messages model forceLocal forceCloud
    match r.error with
    | some e => (.errResp e, r.state)
    | none => (.okResp r.content r.provider, r.state)

/-- An unconfigured cloud backend (no `MOONSHOT_API_KEY`). -/
def cloudUnconfigured : CloudEnv :=
  { keyConfigured := false, post := Http.exn "never called" }

/-- Counterexample to claim C4: when both providers fail, the
`/api/hybrid/chat` endpoint does NOT return an HTTP-200 body with provider
"none" — it returns the underlying 503 error response, whose detail is the
raw backend exception text. -/
theorem chat_endpoints_total_failure_cex :
    (hybrid_chat_endpoint cloudUnconfigured envAllFail ⟨0, 0⟩ 0
        [{ role := "user", content := "hello" }] "auto" false false).1
      = HybridHttpResp.errResp
          { status := 503, error := "Local inference unavailable"
            details := "connection refused" } ∧
    (hybrid_chat_endpoint cloudUnconfigured envAllFail ⟨0, 0⟩ 0
        [{ role := "user", content := "hello" }] "auto" false false).1.status ≠ 200 := by
  refine ⟨?_, ?_⟩ <;> decide

/-- Claim C4 (amended): when the hybrid chain fails, the
`/api/local-ai/chat` endpoint still answers HTTP 200 with provider "none"
and the constant user-safe fallback message (so no backend error text can
reach the client through it); the `/api/hybrid/chat` endpoint instead
returns the error response itself. -/
theorem local_chat_total_failure_degrades (cenv : CloudEnv) (env : OllamaEnv)
    (s : CircuitState) (now : ℚ) (p : ChatPayload)
    (hne : normalizeMessages p.messages p.message ≠ [])
    (hfail : (_hybrid_chat cenv env s now (normalizeMessages p.messages p.message)
        (if p.model = "" then "auto" else p.model) p.forceLocal p.forceCloud).error.isSome
          = true) :
    (local_ai_chat cenv env s now p).1 = LocalChatResp.okResp FALLBACK_MESSAGE "none" ∧
    (local_ai_chat cenv env s now p).1.status = 200 ∧
    (∀ e, (_hybrid_chat cenv env s now (normalizeMessages p.messages p.message)
        (if p.model = "" then "auto" else p.model) p.forceLocal p.forceCloud).error = some e →
      (hybrid_chat_endpoint cenv env s now (normalizeMessages p.messages p.message)
        (if p.model = "" then "auto" else p.model) p.forceLocal p.forceCloud).1
          = HybridHttpResp.errResp e) := by
  obtain ⟨e, he⟩ := Option.isSome_iff_exists.mp hfail
  refine ⟨?_, ?_, ?_⟩
  · simp only [local_ai_chat]
    rw [if_neg hne]
    simp only [he]
  · simp only [local_ai_chat]
    rw [if_neg hne]
    simp only [he]
    rfl
  · intro e2 he2
    simp only [hybrid_chat_endpoint]
    rw [if_neg hne]
    simp only [he2]

/-- Witness for `local_chat_total_failure_degrades` at a concrete payload
with an unreachable local backend and no cloud credential. -/
theorem local_chat_total_failure_degrades_witness :
    (local_ai_chat cloudUnconfigured envAllFail ⟨0, 0⟩ 0
        { messages := some [{ role := "user", content := "hello" }], message := ""
          model := "auto", forceLocal := false, forceCloud := false }).1
      = LocalChatResp.okResp FALLBACK_MESSAGE "none" := by
  exact (local_chat_total_failure_degrades cloudUnconfigured envAllFail ⟨0, 0⟩ 0
    { messages := some [{ role := "user", content := "hello" }], message := ""
      model := "auto", forceLocal := false, forceCloud := false }
    (by decide) (by decide)).1

/-- Association-list lookup, mirroring `d.get(k)` / `k in d` on a Python
dict (keys are unique in every reachable state, and all operations below
act on the first — hence only — occurrence). -/
def alGet [DecidableEq κ] (k : κ) : List (κ × ν) → Option ν
  | [] => none
  | p :: t => if p.1 = k then some p.2 else alGet k t

/-- Association-list write, mirroring `d[k] = v`: replace in place, else
append (Python dicts keep insertion order). -/
def alSet [DecidableEq κ] (k : κ) (v : ν) : List (κ × ν) → List (κ × ν)
  | [] => [(k, v)]
  | p :: t => if p.1 = k then (k, v) :: t else p :: alSet k v t

/-- Association-list delete, mirroring `del d[k]`. -/
def alDel [DecidableEq κ] (k : κ) : List (κ × ν) → List (κ × ν)
  | [] => []
  | p :: t => if p.1 = k then t else p :: alDel k t

lemma alGet_alSet_self [DecidableEq κ] (k : κ) (v : ν) (l : List (κ × ν)) :
    alGet k (alSet k v l) = some v := by
  induction l with
  | nil => simp [alGet, alSet]
  | cons p t ih =>
    by_cases hp : p.1 = k
    · simp [alGet, alSet, hp]
    · simp [alGet, alSet, hp, ih]

/-- One entry of `connected_clients`. -/
structure ClientInfo where
  connectedAt : ℚ
  userId : Option String
  userName : Option String
deriving DecidableEq

/-- One entry of `presence_data`.  A Python dict key that is absent and a
key explicitly set to `None` are both modelled as `none`; the three
`.get(key, default)` defaults of the handlers are applied at event-record
construction (see `applyPresenceUpdate` and `joinRecord`). -/
structure PresenceRecord where
  id : Option String
  name : String
  email : String
  color : String
  status : String
  currentView : Option String
  currentFile : Option String
  cursor : Option String
  selection : Option String
  activity : Option String
  isTyping : Option Bool
  typingIn : Option String
  lastSeen : ℚ
deriving DecidableEq

/-- The whole Socket.IO hub state: `connected_clients` and `presence_data`
(presence keys are `data.get('userId')`, which can be absent). -/
structure HubState where
  clients : List (String × ClientInfo)
  presence : List (Option String × PresenceRecord)
deriving DecidableEq

/-- Events the handlers emit (only the ones the claims mention carry their
payload; `presence_sync` carries the snapshot order of the dict values). -/
inductive Emit where
  | presenceSync (dest : String) (records : List PresenceRecord)
  | userConnected (sid : String) (count : Nat)
  | presenceUpdate (record : PresenceRecord) (skip : Option String)
  | presenceLeave (userId : Option String)
  | userDisconnected (sid : String) (count : Nat)
deriving DecidableEq

/-- Payload of a `presence_join` event (fields the handler reads). -/
structure JoinData where
  userId : Option String
  name : Option String
  email : Option String
  color : Option String
  status : Option String
  currentView : Option String
  currentFile : Option String
deriving DecidableEq

/-- The `user_data` record `presence_join` builds. -/
def joinRecord (d : JoinData) (now : ℚ) : PresenceRecord :=
  { id := d.userId
    name := d.name.getD "Anonymous"
    email := d.email.getD ""
    color := d.color.getD "#d9a07a"
    status := d.status.getD "online"
    currentView := d.currentView
    currentFile := d.currentFile
    cursor := none, selection := none, activity := none, isTyping := none
    typingIn := none
    lastSeen := now }

/-- Payload of a `presence_update` event (fields the handler reads). -/
structure UpdateData where
  userId : Option String
  cursor : Option String
  selection : Option String
  activity : Option String
  isTyping : Option Bool
  typingIn : Option String
  currentView : Option String
  currentFile : Option String
deriving DecidableEq

/-- The `dict.update({...})` performed by `presence_update` on an existing
record: every listed key is written unconditionally, with the handler's
`.get` defaults for unsupplied fields; the fields set at join time
(id, name, email, color, status) are not listed and survive. -/
def applyPresenceUpdate (old : PresenceRecord) (d : UpdateData)
    (now : ℚ) : PresenceRecord :=
  { old with
    cursor := d.cursor
    selection := d.selection
    activity := some (d.activity.getD "idle")
    isTyping := some (d.isTyping.getD false)
    typingIn := d.typingIn
    currentView := d.currentView
    currentFile := d.currentFile
    lastSeen := now }

/-- Python truthiness of the optional `userId` field. -/
def truthyId : Option String → Bool
  | some u => u ≠ ""
  | none => false

/-- Shallow embedding of the `connect` handler. -/
def onConnect (s : HubState) (sid : String) (now : ℚ) : HubState × List Emit :=
  let clients := alSet sid { connectedAt := now, userId := none, userName := none } s.clients
  ({ s with clients := clients },
   [Emit.presenceSync sid (s.presence.map (fun p => p.2)),
    Emit.userConnected sid clients.length])

/-- Shallow embedding of the `disconnect` handler. -/
def onDisconnect (s : HubState) (sid : String) : HubState × List Emit :=
  let uid := (alGet sid s.clients).bind (fun ci => ci.userId)
  let doDelete := truthyId uid && (alGet uid s.presence).isSome
  let presence := if doDelete then alDel uid s.presence else s.presence
  let leaveEmits := if doDelete then [Emit.presenceLeave uid] else []
  let clients := alDel sid s.clients
  ({ clients := clients, presence := presence },
   leaveEmits ++ [Emit.userDisconnected sid clients.length])

/-- Shallow embedding of the `presence_join` handler. -/
def onPresenceJoin (s : HubState) (sid : String) (d : JoinData)
    (now : ℚ) : HubState × List Emit :=
  let u := joinRecord d now
  let clients :=
    match alGet sid s.clients with
    | some ci => alSet sid { ci with userId := d.userId, userName := some u.name } s.clients
    | none => s.clients
  let presence := alSet d.userId u s.presence
  ({ clients := clients, presence := presence }, [Emit.presenceUpdate u none])

/-- Shallow embedding of the `presence_update` handler. -/
def onPresenceUpdate (s : HubState) (sid : String) (d : UpdateData)
    (now : ℚ) : HubState × List Emit :=
  if truthyId d.userId then
    match alGet d.userId s.presence with
    | some old =>
      let u := applyPresenceUpdate old d now
      ({ s with presence := alSet d.userId u s.presence },
       [Emit.presenceUpdate u (some sid)])
    | none => (s, [])
  else (s, [])

/-- A presence record whose `currentView` was set at join time. -/
def c7Old : PresenceRecord :=
  joinRecord { userId := some "u", name := some "Alice", email := none, color := none
               status := none, currentView := some "dashboard", currentFile := none } 0

/-- Hub state with one connected session "A" bound to user "u". -/
def c7State : HubState :=
  { clients := [("A", { connectedAt := 0, userId := some "u", userName := some "Alice" })]
    presence := [(some "u", c7Old)] }

/-- A `presence_update` event supplying nothing but the `userId`. -/
def c7Event : UpdateData :=
  { userId := some "u", cursor := none, selection := none, activity := none
    isTyping := none, typingIn := none, currentView := none, currentFile := none }

/-- Counterexample to claim C7: `currentView` is not supplied by the event,
yet it does NOT stay unchanged — the handler overwrites it with the
event's absent-field value (`None`), clobbering the stored "dashboard". -/
theorem presence_update_partial_merge_cex :
    c7Old.currentView = some "dashboard" ∧
    (alGet (some "u") (onPresenceUpdate c7State "A" c7Event 5).1.presence).map
        (fun r => r.currentView) = some none := by
  refine ⟨rfl, ?_⟩
  decide

/-- Claim C7 (amended): a `presence_update` for a missing or unknown
`userId` is a no-op (no record created, nothing emitted); for an existing
record the handler unconditionally overwrites the update-managed fields
(cursor, selection, activity, isTyping, typingIn, currentView, currentFile)
with the event's values — absent fields becoming the handler defaults —
while the join-managed fields (id, name, email, color, status) are
untouched, and `lastSeen` is set to the mutation time. -/
theorem presence_update_overwrite_semantics (s : HubState) (sid : String)
    (d : UpdateData) (now : ℚ) :
    (truthyId d.userId = false → onPresenceUpdate s sid d now = (s, [])) ∧
    (truthyId d.userId = true → alGet d.userId s.presence = none →
        onPresenceUpdate s sid d now = (s, [])) ∧
    (∀ old, truthyId d.userId = true → alGet d.userId s.presence = some old →
        onPresenceUpdate s sid d now =
          ({ s with presence := alSet d.userId (applyPresenceUpdate old d now) s.presence },
           [Emit.presenceUpdate (applyPresenceUpdate old d now) (some sid)])
      ∧ (applyPresenceUpdate old d now).name = old.name
      ∧ (applyPresenceUpdate old d now).email = old.email
      ∧ (applyPresenceUpdate old d now).color = old.color
      ∧ (applyPresenceUpdate old d now).status = old.status
      ∧ (applyPresenceUpdate old d now).id = old.id
      ∧ (applyPresenceUpdate old d now).lastSeen = now) := by
  refine ⟨?_, ?_, ?_⟩
  · intro ht
    simp [onPresenceUpdate, ht]
  · intro ht hn
    simp [onPresenceUpdate, ht, hn]
  · intro old ht hs
    refine ⟨?_, rfl, rfl, rfl, rfl, rfl, rfl⟩
    simp [onPresenceUpdate, ht, hs]

/-- Witness for `presence_update_overwrite_semantics`: an update for an
unknown userId leaves the state untouched and emits nothing. -/
theorem presence_update_overwrite_semantics_witness :
    onPresenceUpdate c7State "A"
        { userId := some "ghost", cursor := none, selection := none, activity := none
          isTyping := none, typingIn := none, currentView := none, currentFile := none } 5
      = (c7State, []) :=
  (presence_update_overwrite_semantics c7State "A"
    { userId := some "ghost", cursor := none, selection := none, activity := none
      isTyping := none, typingIn := none, currentView := none, currentFile := none } 5).2.1
    (by decide) (by decide)

/-- Join payload for user "u" under the name "Alice". -/
def c8jdA : JoinData :=
  { userId := some "u", name := some "Alice", email := none, color := none
    status := none, currentView := none, currentFile := none }

/-- Join payload for the same user "u" under the name "Bob". -/
def c8jdB : JoinData :=
  { userId := some "u", name := some "Bob", email := none, color := none
    status := none, currentView := none, currentFile := none }

/-- Session A connects. -/
def c8s1 : HubState := (onConnect { clients := [], presence := [] } "A" 0).1

/-- Session A joins as user "u" (Alice). -/
def c8s2 : HubState := (onPresenceJoin c8s1 "A" c8jdA 1).1

/-- Session B connects. -/
def c8s3 : HubState := (onConnect c8s2 "B" 2).1

/-- Session B joins as the same user "u" (Bob), overwriting the record. -/
def c8s4 : HubState := (onPresenceJoin c8s3 "B" c8jdB 3).1

/-- Counterexample to claim C8: after B's join overwrote user "u"'s record
(the stored name is now "Bob"), A's disconnect still deletes u's record
and broadcasts a leave event, although A no longer owns the record —
ownership of the presence record is not tracked per session. -/
theorem presence_lww_disconnect_ownership_cex :
    (alGet (some "u") c8s4.presence).map (fun r => r.name) = some "Bob" ∧
    alGet (some "u") (onDisconnect c8s4 "A").1.presence = none ∧
    Emit.presenceLeave (some "u") ∈ (onDisconnect c8s4 "A").2 := by
  refine ⟨?_, ?_, ?_⟩ <;> decide

/-- Claim C8 (amended): a later `presence_join` for the same `userId`
overwrites the presence record (last-writer-wins, across connections);
`disconnect` deletes the `userId`'s record and broadcasts a leave event
exactly when the disconnecting session's bound userId is truthy and a
record for it exists — irrespective of which session last wrote that
record. -/
theorem presence_join_overwrite_disconnect_guard (s : HubState) (sid : String)
    (d : JoinData) (now : ℚ) :
    alGet d.userId (onPresenceJoin s sid d now).1.presence = some (joinRecord d now) ∧
    (∀ u, (alGet sid s.clients).bind (fun ci => ci.userId) = some u → u ≠ "" →
        (alGet (some u) s.presence).isSome = true →
        (onDisconnect s sid).1.presence = alDel (some u) s.presence
      ∧ Emit.presenceLeave (some u) ∈ (onDisconnect s sid).2) ∧
    ((truthyId ((alGet sid s.clients).bind (fun ci => ci.userId)) = false ∨
        (alGet ((alGet sid s.clients).bind (fun ci => ci.userId)) s.presence).isSome = false) →
      (onDisconnect s sid).1.presence = s.presence
      ∧ ∀ uid, Emit.presenceLeave uid ∉ (onDisconnect s sid).2) := by
  refine ⟨?_, ?_, ?_⟩
  · exact alGet_alSet_self _ _ _
  · intro u hu hne hsome
    have ht : truthyId (some u) = true := by simp [truthyId, hne]
    constructor
    · simp [onDisconnect, hu, ht, hsome]
    · simp [onDisconnect, hu, ht, hsome]
  · intro hcase
    have hd : (truthyId ((alGet sid s.clients).bind (fun ci => ci.userId)) &&
        (alGet ((alGet sid s.clients).bind (fun ci => ci.userId)) s.presence).isSome) = false := by
      rcases hcase with hc | hc <;> simp [hc]
    constructor
    · simp [onDisconnect, hd]
    · intro uid
      simp [onDisconnect, hd]

/-- Witness for `presence_join_overwrite_disconnect_guard`: in the concrete
two-session scenario, A's disconnect performs the deletion and emits the
leave event. -/
theorem presence_join_overwrite_disconnect_guard_witness :
    (onDisconnect c8s4 "A").1.presence = alDel (some "u") c8s4.presence ∧
    Emit.presenceLeave (some "u") ∈ (onDisconnect c8s4 "A").2 :=
  (presence_join_overwrite_disconnect_guard c8s4 "A" c8jdA 0).2.1 "u"
    (by decide) (by decide) (by decide)

/-- The whitespace characters of Python's default `str.strip`. -/
def pyIsSpace (c : Char) : Bool :=
  c == ' ' || c == '\t' || c == '\n' || c == '\r' || c.toNat == 11 || c.toNat == 12

/-- Python `str.strip()` on a character list. -/
def pstrip (l : List Char) : List Char :=
  ((l.dropWhile pyIsSpace).reverse.dropWhile pyIsSpace).reverse

/-- Python `str.strip()` on a string. -/
def pyStrip (s : String) : String := String.mk (pstrip s.data)

/-- Split at the first occurrence of `sep`, returning the parts before and
after it; `none` when `sep` does not occur. -/
def splitFirstSep (sep : List Char) : List Char → Option (List Char × List Char)
  | [] => none
  | c :: rest =>
    if sep.isPrefixOf (c :: rest) then some ([], (c :: rest).drop sep.length)
    else
      match splitFirstSep sep rest with
      | some (pre, post) => some (c :: pre, post)
      | none => none

/-- The part after the last occurrence of `c` (`str.rpartition`); the whole
list when `c` does not occur. -/
def afterLastChar (c : Char) (l : List Char) : List Char :=
  (l.reverse.takeWhile (fun x => x != c)).reverse

/-- Split on every occurrence of a character (Python `str.split(c)`). -/
def splitOnChar (c : Char) : List Char → List (List Char)
  | [] => [[]]
  | x :: t =>
    let r := splitOnChar c t
    if x == c then [] :: r
    else
      match r with
      | [] => [[x]]
      | h :: rt => (x :: h) :: rt

/-- The `urlparse`-derived data `_is_public_http_url` reads: the lowercased
scheme and hostname of a `scheme://netloc/...` URL (netloc ends at the
first of `/ ? #`; user-info before the last `@` is dropped; a bracketed
host keeps the content of the brackets, otherwise the host ends at the
first `:`).  Raw strings of any other shape make the source's checks fail
— scheme not in (http, https), or empty hostname — so they map to `none`
and the filter returns false for them, matching the source's verdict. -/
def parseUrl (raw : List Char) : Option (List Char × List Char) :=
  match splitFirstSep ("://".data) raw with
  | none => none
  | some (schemeRaw, rest) =>
    if schemeRaw.isEmpty || schemeRaw.any (fun c => c == '/' || c == '?' || c == '#') then none
    else
      let netloc := rest.takeWhile (fun c => !(c == '/' || c == '?' || c == '#'))
      let hostinfo := afterLastChar '@' netloc
      let host :=
        match hostinfo with
        | '[' :: t => t.takeWhile (fun c => c != ']')
        | _ => hostinfo.takeWhile (fun c => c != ':')
      some (pyLower schemeRaw, pyLower host)

/-- One octet of a dotted-quad IPv4 literal, with Python's `ipaddress`
rules: 1-3 digits, no leading zero, value at most 255. -/
def parseOctet (l : List Char) : Option Nat :=
  if l.isEmpty then none
  else if ¬ l.all (fun c => c.isDigit) then none
  else if 3 < l.length then none
  else if 1 < l.length ∧ l.head? = some '0' then none
  else
    let n := l.foldl (fun acc c => acc * 10 + (c.toNat - 48)) 0
    if n ≤ 255 then some n else none

/-- `ipaddress.ip_address` restricted to IPv4 dotted-quad strings; every
other string raises `ValueError` in the source and is treated as a plain
hostname.  (IPv6 literals are not modelled: the only one the source names,
`::1`, is already rejected by the hostname blocklist before this parse.) -/
def parseIPv4 (host : List Char) : Option (Nat × Nat × Nat × Nat) :=
  match splitOnChar '.' host with
  | [a, b, c, d] =>
    match parseOctet a, parseOctet b, parseOctet c, parseOctet d with
    | some x, some y, some z, some w => some (x, y, z, w)
    | _, _, _, _ => none
  | _ => none

/-- `IPv4Address.is_loopback`: 127.0.0.0/8. -/
def ipv4IsLoopback (a _b _c _d : Nat) : Bool := a == 127

/-- `IPv4Address.is_link_local`: 169.254.0.0/16. -/
def ipv4IsLinkLocal (a b _c _d : Nat) : Bool := a == 169 && b == 254

/-- `IPv4Address.is_multicast`: 224.0.0.0/4. -/
def ipv4IsMulticast (a _b _c _d : Nat) : Bool := decide (224 ≤ a ∧ a ≤ 239)

/-- `IPv4Address.is_reserved`: 240.0.0.0/4. -/
def ipv4IsReserved (a _b _c _d : Nat) : Bool := decide (240 ≤ a)

/-- `IPv4Address.is_private`: the union of the private networks of
Python's `ipaddress` (0/8, 10/8, 127/8, 169.254/16, 172.16/12, 192.0.0/29,
192.0.0.170/31, 192.0.2/24, 192.168/16, 198.18/15, 198.51.100/24,
203.0.113/24, 240/4, 255.255.255.255/32). -/
def ipv4IsPrivate (a b c d : Nat) : Bool :=
  decide (a = 0 ∨ a = 10 ∨ a = 127 ∨ (a = 169 ∧ b = 254) ∨
    (a = 172 ∧ 16 ≤ b ∧ b ≤ 31) ∨ (a = 192 ∧ b = 0 ∧ c = 0 ∧ d ≤ 7) ∨
    (a = 192 ∧ b = 0 ∧ c = 0 ∧ (d = 170 ∨ d = 171)) ∨ (a = 192 ∧ b = 0 ∧ c = 2) ∨
    (a = 192 ∧ b = 168) ∨ (a = 198 ∧ (b = 18 ∨ b = 19)) ∨
    (a = 198 ∧ b = 51 ∧ c = 100) ∨ (a = 203 ∧ b = 0 ∧ c = 113) ∨ 240 ≤ a)

/-- The disjunction tested by the source:
`ip.is_private or ip.is_loopback or ip.is_link_local or ip.is_reserved or
ip.is_multicast`. -/
def ipv4Blocked (a b c d : Nat) : Bool :=
  ipv4IsPrivate a b c d || ipv4IsLoopback a b c d || ipv4IsLinkLocal a b c d ||
    ipv4IsReserved a b c d || ipv4IsMulticast a b c d

/-- Shallow embedding of `_is_public_http_url`. -/
def _is_public_http_url (raw : String) : Bool :=
  match parseUrl raw.data with
  | none => false
  | some (scheme, host0) =>
    if !(scheme == "http".data || scheme == "https".data) then false
    else
      let host := pyLower (pstrip host0)
      if host.isEmpty then false
      else if host == "localhost".data || host == "127.0.0.1".data || host == "::1".data then
        false
      else if (".local".data).isSuffixOf host || (".internal".data).isSuffixOf host then
        false
      else
        match parseIPv4 host with
        | some (a, b, c, d) => !(ipv4Blocked a b c d)
        | none => true

/-- How the `local_ai_knowledge_ingest` handler proceeds after reading its
payload: reject with a 400, fetch the supplied URL over the network, or
continue with the inline document text. -/
inductive IngestOutcome where
  | badRequest (msg : String)
  | fetchUrl
  | ingestText
deriving DecidableEq

/-- The input-routing prefix of `local_ai_knowledge_ingest`: the stripped
`content` field wins over `text`; the URL is consulted only when it is
non-empty and no inline document text was supplied, and then the
private-network filter decides between fetching and a 400. -/
def ingestRoute (text content url : String) : IngestOutcome :=
  let text := pyStrip text
  let content := pyStrip content
  let url := pyStrip url
  let documentText := if content ≠ "" then content else text
  if url ≠ "" ∧ documentText = "" then
    if _is_public_http_url url then IngestOutcome.fetchUrl
    else IngestOutcome.badRequest "Invalid or blocked URL"
  else if documentText = "" then IngestOutcome.badRequest "text, content, or url is required"
  else IngestOutcome.ingestText

/-- Claim C6: the URL filter rejects the four private/local URLs and
accepts the public one; in the ingest handler the filter is evaluated
before any fetch — every run that reaches the network passed the filter —
and a blocked URL (supplied as the document source) yields a 400 with no
fetch attempted. -/
theorem url_filter_and_ingest_guard :
    (_is_public_http_url "http://127.0.0.1/x" = false ∧
      _is_public_http_url "http://localhost:9999" = false ∧
      _is_public_http_url "http://10.0.0.5/" = false ∧
      _is_public_http_url "http://internal.local/" = false ∧
      _is_public_http_url "https://example.com/page" = true) ∧
    (∀ text content url, ingestRoute text content url = IngestOutcome.fetchUrl →
      _is_public_http_url (pyStrip url) = true) ∧
    (∀ text content url,
      pyStrip url ≠ "" →
      (if pyStrip content ≠ "" then pyStrip content else pyStrip text) = "" →
      _is_public_http_url (pyStrip url) = false →
      ingestRoute text content url = IngestOutcome.badRequest "Invalid or blocked URL") := by
  refine ⟨⟨?_, ?_, ?_, ?_, ?_⟩, ?_, ?_⟩
  · decide
  · decide
  · decide
  · decide
  · decide
  · intro text content url h
    simp only [ingestRoute] at h
    by_cases h1 : pyStrip url ≠ "" ∧
        (if pyStrip content ≠ "" then pyStrip content else pyStrip text) = ""
    · rw [if_pos h1] at h
      by_cases h2 : _is_public_http_url (pyStrip url) = true
      · exact h2
      · rw [if_neg h2] at h
        exact absurd h (by decide)
    · rw [if_neg h1] at h
      by_cases h3 : (if pyStrip content ≠ "" then pyStrip content else pyStrip text) = ""
      · rw [if_pos h3] at h
        exact absurd h (by decide)
      · rw [if_neg h3] at h
        exact absurd h (by decide)
  · intro text content url hurl hdoc hfilter
    simp only [ingestRoute]
    rw [if_pos ⟨hurl, hdoc⟩, if_neg (by simp [hfilter])]

/-- Witness for `url_filter_and_ingest_guard`: a blocked URL with no inline
text is rejected with the 400 message and no fetch. -/
theorem url_filter_and_ingest_guard_witness :
    ingestRoute "" "" "http://localhost:9999"
      = IngestOutcome.badRequest "Invalid or blocked URL" :=
  url_filter_and_ingest_guard.2.2 "" "" "http://localhost:9999"
    (by decide) (by decide) (by decide)

/-- Python `str.rfind(c)`: the index of the last occurrence of `c`, or
`-1` when absent. -/
def pyRfind (c : Char) : List Char → Int
  | [] => -1
  | x :: xs =>
    let r := pyRfind c xs
    if 0 ≤ r then r + 1 else if x = c then 0 else -1

lemma pyRfind_lt_length (c : Char) (l : List Char) :
    pyRfind c l < (l.length : Int) := by
  induction l with
  | nil => simp [pyRfind]
  | cons x xs ih =>
    simp only [pyRfind, List.length_cons]
    by_cases h0 : 0 ≤ pyRfind c xs
    · rw [if_pos h0]
      push_cast
      omega
    · rw [if_neg h0]
      by_cases hx : x = c
      · rw [if_pos hx]
        positivity
      · rw [if_neg hx]
        have : (0 : Int) ≤ (xs.length : Int) := Int.natCast_nonneg _
        omega

/-- `break_point = max(chunk.rfind('.'), chunk.rfind('\n'))` for the
window of (at most) 500 characters starting at `start`. -/
def chunkBreakPoint (text : List Char) (start : Nat) : Int :=
  max (pyRfind '.' ((text.drop start).take 500))
    (pyRfind '\n' ((text.drop start).take 500))

/-- The end position the body of `_chunk_text`'s loop computes for the
window starting at `start` (chunk_size 500, midpoint 250): the
sentence-boundary break point replaces `start + 500` only when the window
is not the final one and the break point lies past the midpoint. -/
def chunkStop (text : List Char) (start : Nat) : Nat :=
  if start + 500 < text.length ∧ 250 < chunkBreakPoint text start then
    start + (chunkBreakPoint text start).toNat + 1
  else start + 500

lemma chunkStop_lb (text : List Char) (start : Nat) :
    start + 251 ≤ chunkStop text start := by
  unfold chunkStop
  split
  · next h => omega
  · omega

lemma chunkStop_sub_le (text : List Char) (start : Nat) :
    chunkStop text start - start ≤ 500 := by
  have h1 := pyRfind_lt_length '.' ((text.drop start).take 500)
  have h2 := pyRfind_lt_length '\n' ((text.drop start).take 500)
  have hw : ((text.drop start).take 500).length ≤ 500 := by
    rw [List.length_take]
    omega
  have hcast : (((text.drop start).take 500).length : Int) ≤ 500 := by
    exact_mod_cast hw
  have h3 : chunkBreakPoint text start < (500 : Int) :=
    max_lt (lt_of_lt_of_le h1 hcast) (lt_of_lt_of_le h2 hcast)
  unfold chunkStop
  split
  · next h => omega
  · omega

lemma pstrip_length_le (l : List Char) : (pstrip l).length ≤ l.length := by
  unfold pstrip
  calc (((l.dropWhile pyIsSpace).reverse.dropWhile pyIsSpace).reverse).length
      = ((l.dropWhile pyIsSpace).reverse.dropWhile pyIsSpace).length := by
        rw [List.length_reverse]
    _ ≤ (l.dropWhile pyIsSpace).reverse.length :=
        (List.dropWhile_sublist _).length_le
    _ = (l.dropWhile pyIsSpace).length := by rw [List.length_reverse]
    _ ≤ l.length := (List.dropWhile_sublist _).length_le

/-- The fuelled embedding of `_chunk_text`'s while-loop (one unit of fuel
per iteration; `chunkAux_fuel_stable` shows `text.length` fuel always
suffices, i.e. the Python loop terminates). -/
def chunkAux (text : List Char) : Nat → Nat → List (List Char)
  | 0, _ => []
  | fuel + 1, start =>
    if start < text.length then
      pstrip ((text.drop start).take (chunkStop text start - start))
        :: chunkAux text fuel (chunkStop text start - 50)
    else []

/-- Shallow embedding of `_chunk_text` at its default parameters
(`chunk_size=500`, `overlap=50` — the only values the source ever passes). -/
def _chunk_text (text : List Char) : List (List Char) :=
  if text.length ≤ 500 then [text]
  else (chunkAux text text.length 0).filter (fun c => !c.isEmpty)

lemma chunkAux_of_ge (text : List Char) (fuel start : Nat)
    (h : text.length ≤ start) : chunkAux text fuel start = [] := by
  cases fuel with
  | zero => rfl
  | succ f =>
    unfold chunkAux
    rw [if_neg (Nat.not_lt.mpr h)]

lemma chunkAux_fuel_stable (text : List Char) :
    ∀ f₁ f₂ start, text.length - start ≤ f₁ → text.length - start ≤ f₂ →
      chunkAux text f₁ start = chunkAux text f₂ start := by
  intro f₁
  induction f₁ with
  | zero =>
    intro f₂ start h₁ _
    have hge : text.length ≤ start := by omega
    rw [chunkAux_of_ge text 0 start hge, chunkAux_of_ge text f₂ start hge]
  | succ f ih =>
    intro f₂ start h₁ h₂
    by_cases hs : start < text.length
    · have hstop := chunkStop_lb text start
      cases f₂ with
      | zero => omega
      | succ g =>
        unfold chunkAux
        rw [if_pos hs, if_pos hs]
        congr 1
        exact ih g (chunkStop text start - 50) (by omega) (by omega)
    · have hge : text.length ≤ start := Nat.not_lt.mp hs
      rw [chunkAux_of_ge text _ start hge, chunkAux_of_ge text _ start hge]

lemma chunkAux_mem_length_le (text : List Char) :
    ∀ fuel start c, c ∈ chunkAux text fuel start → c.length ≤ 500 := by
  intro fuel
  induction fuel with
  | zero => intro start c hc; cases hc
  | succ f ih =>
    intro start c hc
    unfold chunkAux at hc
    by_cases hs : start < text.length
    · rw [if_pos hs] at hc
      rcases List.mem_cons.mp hc with hc | hc
      · subst hc
        calc (pstrip ((text.drop start).take (chunkStop text start - start))).length
            ≤ ((text.drop start).take (chunkStop text start - start)).length :=
              pstrip_length_le _
          _ ≤ chunkStop text start - start := List.length_take_le _ _
          _ ≤ 500 := chunkStop_sub_le text start
      · exact ih _ c hc
    · rw [if_neg hs] at hc
      cases hc

/-- Counterexample to claim C10: on the empty input the chunker returns a
single empty chunk, so not every returned chunk is non-empty. -/
theorem chunker_empty_chunk_cex :
    _chunk_text [] = [[]] ∧ ¬ (∀ c ∈ _chunk_text ([] : List Char), c ≠ []) := by
  constructor
  · rfl
  · intro hall
    exact hall [] (by decide) rfl

/-- Claim C10 (amended): the chunking loop with default parameters always
terminates — `text.length` fuel is enough, because every iteration moves
`start` strictly forward (the boundary break point is only taken past the
midpoint 250, which exceeds the overlap 50) — every returned chunk is at
most 500 characters long, and for every NON-empty input every returned
chunk is non-empty (the empty input returns the single empty chunk). -/
theorem chunker_termination_and_bounds (text : List Char) :
    (∀ fuel, text.length ≤ fuel →
      chunkAux text fuel 0 = chunkAux text text.length 0) ∧
    (∀ start, start < chunkStop text start - 50) ∧
    (∀ c ∈ _chunk_text text, c.length ≤ 500) ∧
    (text ≠ [] → ∀ c ∈ _chunk_text text, c ≠ []) := by
  refine ⟨?_, ?_, ?_, ?_⟩
  · intro fuel hf
    exact chunkAux_fuel_stable text fuel text.length 0 (by omega) (by omega)
  · intro start
    have := chunkStop_lb text start
    omega
  · intro c hc
    unfold _chunk_text at hc
    by_cases hlen : text.length ≤ 500
    · rw [if_pos hlen] at hc
      rcases List.mem_singleton.mp hc with rfl
      omega
    · rw [if_neg hlen] at hc
      exact chunkAux_mem_length_le text _ _ c (List.mem_of_mem_filter hc)
  · intro hne c hc
    unfold _chunk_text at hc
    by_cases hlen : text.length ≤ 500
    · rw [if_pos hlen] at hc
      rcases List.mem_singleton.mp hc with rfl
      exact hne
    · rw [if_neg hlen] at hc
      have hp := List.of_mem_filter hc
      intro hnil
      subst hnil
      simp at hp

/-- Witness for `chunker_termination_and_bounds`: with surplus fuel the
loop computes on "abc" exactly what `text.length` fuel computes. -/
theorem chunker_termination_and_bounds_witness :
    chunkAux ("abc".data) 10 0 = chunkAux ("abc".data) ("abc".data).length 0 ∧
    ("hi".data ∈ _chunk_text ("hi".data) → ("hi".data).length ≤ 500) :=
  ⟨(chunker_termination_and_bounds "abc".data).1 10 (by decide),
   fun hm => (chunker_termination_and_bounds "hi".data).2.2.1 "hi".data hm⟩

/-- Claim C9: with the default chunk size 500 and overlap 50, every input
of at most 500 characters is returned whole as the single chunk, and the
1200-character input of 1200 copies of a letter splits into exactly 3
chunks. -/
lemma chunkAux_succ (text : List Char) (fuel start : Nat)
    (h : start < text.length) :
    chunkAux text (fuel + 1) start =
      pstrip ((text.drop start).take (chunkStop text start - start))
        :: chunkAux text fuel (chunkStop text start - 50) := by
  simp only [chunkAux]
  rw [if_pos h]

lemma pyRfind_of_not_mem (c : Char) (l : List Char) (h : c ∉ l) :
    pyRfind c l = -1 := by
  induction l with
  | nil => rfl
  | cons x xs ih =>
    have hx : ¬ x = c := fun hxc => h (hxc ▸ List.mem_cons_self x xs)
    have hxs : c ∉ xs := fun hm => h (List.mem_cons_of_mem _ hm)
    simp only [pyRfind, ih hxs]
    rw [if_neg (by norm_num), if_neg hx]

lemma chunkBreakPoint_replicate (start : Nat) :
    chunkBreakPoint (List.replicate 1200 'a') start = -1 := by
  unfold chunkBreakPoint
  rw [List.drop_replicate, List.take_replicate]
  rw [pyRfind_of_not_mem _ _
        (fun h => absurd (List.eq_of_mem_replicate h) (by decide)),
      pyRfind_of_not_mem _ _
        (fun h => absurd (List.eq_of_mem_replicate h) (by decide))]
  rfl

lemma chunkStop_replicate (start : Nat) :
    chunkStop (List.replicate 1200 'a') start = start + 500 := by
  have hcond : ¬ (start + 500 < (List.replicate 1200 'a').length ∧
      250 < chunkBreakPoint (List.replicate 1200 'a') start) := by
    rintro ⟨-, h2⟩
    rw [chunkBreakPoint_replicate] at h2
    exact absurd h2 (by norm_num)
  unfold chunkStop
  rw [if_neg hcond]

lemma dropWhile_of_forall_neg (p : Char → Bool) (l : List Char)
    (h : ∀ x ∈ l, p x = false) : l.dropWhile p = l := by
  cases l with
  | nil => rfl
  | cons x xs =>
    rw [List.dropWhile_cons_of_neg (by simp [h x (List.mem_cons_self x xs)])]

lemma pstrip_replicate (n : Nat) :
    pstrip (List.replicate n 'a') = List.replicate n 'a' := by
  have hmem : ∀ x ∈ List.replicate n 'a', pyIsSpace x = false := by
    intro x hx
    rw [List.eq_of_mem_replicate hx]
    rfl
  unfold pstrip
  rw [dropWhile_of_forall_neg _ _ hmem, List.reverse_replicate,
      dropWhile_of_forall_neg _ _ hmem, List.reverse_replicate]

/-- One loop iteration of the chunker on the boundary-free 1200-character
input: the window is a whole 500-character slice (clipped at the end) and
`start` advances by 450. -/
lemma chunkAux_replicate_step (fuel start : Nat) (h : start < 1200) :
    chunkAux (List.replicate 1200 'a') (fuel + 1) start
      = List.replicate (min 500 (1200 - start)) 'a'
          :: chunkAux (List.replicate 1200 'a') fuel (start + 450) := by
  have hlen : start < (List.replicate 1200 'a').length := by
    rw [List.length_replicate]
    exact h
  rw [chunkAux_succ _ fuel start hlen, chunkStop_replicate]
  have e1 : start + 500 - start = 500 := by omega
  have e2 : start + 500 - 50 = start + 450 := by omega
  rw [e1, e2, List.drop_replicate, List.take_replicate, pstrip_replicate]

/-- Claim C9: with the default chunk size 500 and overlap 50, every input
of at most 500 characters is returned whole as the single chunk, and the
1200-character input of 1200 copies of a letter splits into exactly 3
chunks. -/
theorem chunker_small_input_and_1200 :
    (∀ t : List Char, t.length ≤ 500 → _chunk_text t = [t]) ∧
    (_chunk_text (List.replicate 1200 'a')).length = 3 := by
  constructor
  · intro t ht
    unfold _chunk_text
    rw [if_pos ht]
  · have h0 : chunkAux (List.replicate 1200 'a') 1200 0
        = List.replicate (min 500 (1200 - 0)) 'a'
            :: chunkAux (List.replicate 1200 'a') 1199 (0 + 450) :=
      chunkAux_replicate_step 1199 0 (by norm_num)
    have h1 : chunkAux (List.replicate 1200 'a') 1199 450
        = List.replicate (min 500 (1200 - 450)) 'a'
            :: chunkAux (List.replicate 1200 'a') 1198 (450 + 450) :=
      chunkAux_replicate_step 1198 450 (by norm_num)
    have h2 : chunkAux (List.replicate 1200 'a') 1198 900
        = List.replicate (min 500 (1200 - 900)) 'a'
            :: chunkAux (List.replicate 1200 'a') 1197 (900 + 450) :=
      chunkAux_replicate_step 1197 900 (by norm_num)
    have h3 : chunkAux (List.replicate 1200 'a') 1197 1350 = [] :=
      chunkAux_of_ge _ _ _ (by rw [List.length_replicate]; norm_num)
    have hchain : chunkAux (List.replicate 1200 'a') 1200 0
        = [List.replicate 500 'a', List.replicate 500 'a', List.replicate 300 'a'] := by
      rw [h0]
      norm_num
      rw [h1]
      norm_num
      rw [h2]
      norm_num
      rw [h3]
    have hlen : ¬ (List.replicate 1200 'a').length ≤ 500 := by
      rw [List.length_replicate]
      norm_num
    unfold _chunk_text
    rw [if_neg hlen]
    have hfuel : (List.replicate 1200 'a').length = 1200 := List.length_replicate ..
    rw [hfuel, hchain]
    decide

/-- Witness for `chunker_small_input_and_1200`: a two-character input comes
back as one whole chunk. -/
theorem chunker_small_input_and_1200_witness :
    _chunk_text ("hi".data) = ["hi".data] :=
  chunker_small_input_and_1200.1 "hi".data (by decide)
